import Mathlib

/-!
Shallow embedding of the command-line argument parser in `src/args.rs` of the
`whim` repository, together with theorems checking the specification's claims
about it.  Tokens and flag names are modelled as Lean `String`s (lists of
characters); the fallible Rust functions returning `Result` are modelled with
`Except`.
-/

namespace WhimArgs

/-- A subcommand of the program (`Command(pub Rc<str>)` in the source);
identity is by name string. -/
structure Command where
  name : String
deriving DecidableEq

/-- A declared command line flag, tagged with its expected value kind
(`enum Flag` in the source). -/
inductive Flag where
  | bool (name : String)
  | uint (name : String)
  | int (name : String)
  | string (name : String)
deriving DecidableEq

/-- The flag's name, regardless of variant (`Flag::name`). -/
def Flag.name : Flag → String
  | .bool s => s
  | .uint s => s
  | .int s => s
  | .string s => s

/-- Whether the flag is the boolean variant. -/
def Flag.isBool : Flag → Bool
  | .bool _ => true
  | _ => false

/-- A typed argument value (`enum Value` in the source).  `uint` carries a
`Nat` that coercion keeps below `2 ^ 64`; `int` carries an `Int` kept within
the signed 64-bit range. -/
inductive Value where
  | bool (b : Bool)
  | uint (n : Nat)
  | int (n : Int)
  | string (s : String)
deriving DecidableEq

/-- One classified item of the argument sequence (`enum ArgsItem`). -/
inductive ArgsItem where
  | command (c : Command)
  | flag (f : Flag)
  | value (v : Value)
deriving DecidableEq

/-- Parse errors (`enum Error`). -/
inductive Error where
  | malformedArgument (arg : String)
  | badFlag
deriving DecidableEq

/-- Accumulate decimal digits left to right; fails on any non-digit. -/
def digitsToNatAux (acc : Nat) : List Char → Option Nat
  | [] => some acc
  | c :: cs =>
    if c.isDigit then digitsToNatAux (acc * 10 + (c.toNat - 48)) cs
    else none

/-- Value of a non-empty all-digit character list; `none` otherwise. -/
def digitsToNat? : List Char → Option Nat
  | [] => none
  | cs => digitsToNatAux 0 cs

/-- Largest value of Rust's `u64`. -/
def U64_MAX : Nat := 2 ^ 64 - 1

/-- Rust's `str::parse::<u64>`: optional leading `+`, then one or more ASCII
digits, and the value must fit in 64 unsigned bits. -/
def parseU64? (s : String) : Option Nat :=
  let cs :=
    match s.data with
    | '+' :: rest => rest
    | cs => cs
  (digitsToNat? cs).bind (fun n => if n ≤ U64_MAX then some n else none)

/-- Rust's `str::parse::<i64>`: optional leading `+` or `-`, then one or more
ASCII digits, and the value must fit in 64 signed bits. -/
def parseI64? (s : String) : Option Int :=
  match s.data with
  | '-' :: rest =>
    (digitsToNat? rest).bind (fun n => if n ≤ 2 ^ 63 then some (-(n : Int)) else none)
  | '+' :: rest =>
    (digitsToNat? rest).bind (fun n => if n ≤ 2 ^ 63 - 1 then some (n : Int) else none)
  | cs =>
    (digitsToNat? cs).bind (fun n => if n ≤ 2 ^ 63 - 1 then some (n : Int) else none)

/-- Rust's `str::parse::<bool>`: exactly the literals `true` and `false`. -/
def parseBool? (s : String) : Option Bool :=
  if s = "true" then some true
  else if s = "false" then some false
  else none

/-- Coerce an argument into a `Value` of the variant matching this flag
(`Flag::parse_value`).  String flags never fail, since Rust's
`str::parse::<String>` is infallible. -/
def Flag.parse_value (f : Flag) (arg : String) : Except Error Value :=
  match f with
  | .bool _ =>
    match parseBool? arg with
    | some b => .ok (.bool b)
    | none => .error (.malformedArgument arg)
  | .uint _ =>
    match parseU64? arg with
    | some n => .ok (.uint n)
    | none => .error (.malformedArgument arg)
  | .int _ =>
    match parseI64? arg with
    | some n => .ok (.int n)
    | none => .error (.malformedArgument arg)
  | .string _ => .ok (.string arg)

/-- Whether the character list begins with two dashes
(Rust's `arg.starts_with("--")`). -/
def startsWithDashDash (cs : List Char) : Bool :=
  match cs with
  | c1 :: c2 :: _ => c1 = '-' && c2 = '-'
  | _ => false

/-- Whether the character list begins with a dash
(Rust's `arg.starts_with('-')`). -/
def startsWithDash (cs : List Char) : Bool :=
  match cs with
  | c :: _ => c = '-'
  | [] => false

/-- Rust's `str::replace("--", "")`: delete every non-overlapping occurrence
of two consecutive dashes, scanning left to right. -/
def replaceDashDash : List Char → List Char
  | [] => []
  | [c] => [c]
  | c1 :: c2 :: rest =>
    if c1 = '-' && c2 = '-' then replaceDashDash rest
    else c1 :: replaceDashDash (c2 :: rest)

/-- Whether the character list contains no two consecutive dashes. -/
def noDashDash : List Char → Bool
  | [] => true
  | [_] => true
  | c1 :: c2 :: rest => !(c1 = '-' && c2 = '-') && noDashDash (c2 :: rest)

/-- Length of a character list in UTF-8 bytes: Rust's `str::len`, which the
source's `arg.len() == "-f".len()` guard compares against `2`. -/
def utf8Len : List Char → Nat
  | [] => 0
  | c :: cs => c.utf8Size + utf8Len cs

/-- The candidate flag name extracted from a token by `try_parse_flag`:
with two leading dashes, every `"--"` occurrence is deleted (Rust
`replace("--", "")`); otherwise a token of two UTF-8 bytes has all dashes
deleted (Rust `replace('-', "")`); any other shape is malformed. -/
def stripFlagName (arg : String) : Option String :=
  if startsWithDashDash arg.data then
    some (String.mk (replaceDashDash arg.data))
  else if utf8Len arg.data = 2 then
    some (String.mk (arg.data.filter (fun c => c ≠ '-')))
  else
    none

/-- Look up a declared flag by name (`self.flags.iter().find(...)`). -/
def findFlag (fl : List Flag) (n : String) : Option Flag :=
  fl.find? (fun f => f.name == n)

/-- Look up a declared command by exact token match
(`self.commands.iter().find(...)`). -/
def findCommand (cmds : List Command) (arg : String) : Option Command :=
  cmds.find? (fun c => c.name == arg)

/-- The `try_parse_flag` closure of `ArgsParser::parse`. -/
def tryParseFlag (fl : List Flag) (arg : String) : Except Error ArgsItem :=
  match stripFlagName arg with
  | none => .error (.malformedArgument arg)
  | some n =>
    match findFlag fl n with
    | some f => .ok (.flag f)
    | none => .error .badFlag

/-- One iteration of the classification loop in `ArgsParser::parse`: classify
token `arg` given the previous classification `prev`. -/
def step (cmds : List Command) (fl : List Flag) (prev : ArgsItem) (arg : String) :
    Except Error ArgsItem :=
  match prev with
  | .flag (Flag.bool n) =>
    match findCommand cmds arg with
    | some c => .ok (.command c)
    | none =>
      if startsWithDash arg.data then tryParseFlag fl arg
      else ((Flag.bool n).parse_value arg).map ArgsItem.value
  | .flag f => (f.parse_value arg).map ArgsItem.value
  | _ =>
    match findCommand cmds arg with
    | some c => .ok (.command c)
    | none =>
      if startsWithDash arg.data then tryParseFlag fl arg
      else .ok (.value (.string arg))

/-- The initial `prev` state of the loop (`ArgsItem::Value(Value::Bool(false))`). -/
def initPrev : ArgsItem := .value (.bool false)

/-- The classification loop of `ArgsParser::parse`, started from an arbitrary
previous classification; errors abort the whole parse. -/
def parseFrom (cmds : List Command) (fl : List Flag) : ArgsItem → List String →
    Except Error (List ArgsItem)
  | _, [] => .ok []
  | prev, arg :: rest =>
    match step cmds fl prev arg with
    | .error e => .error e
    | .ok item =>
      match parseFrom cmds fl item rest with
      | .error e => .error e
      | .ok items => .ok (item :: items)

/-- Result of a successful parse (`struct ParsedArgs`). -/
structure ParsedArgs where
  flags : List Flag
  items : List ArgsItem
deriving DecidableEq

/-- Model of `ArgsParser::parse`: classify every token left to right, starting from the
initial previous classification. -/
def parse (cmds : List Command) (fl : List Flag) (args : List String) :
    Except Error ParsedArgs :=
  match parseFrom cmds fl initPrev args with
  | .ok items => .ok ⟨fl, items⟩
  | .error e => .error e

/-- The map from declared flags to `None` that `ParsedArgs::flags` starts
from, modelled as a function; `none` marks keys absent from the map. -/
def initFlagMap (fl : List Flag) : Flag → Option (Option Value) :=
  fun f => if f ∈ fl then some none else none

/-- The value recorded for flag `f` given the peeked item that follows it:
a following `Value` item is recorded as-is, otherwise a boolean flag records
`Bool(true)` and any other flag records no value. -/
def recordOf (f : Flag) (next : Option ArgsItem) : Option Value :=
  match next with
  | some (.value v) => some v
  | _ => if f.isBool then some (.bool true) else none

/-- The scanning loop of `ParsedArgs::flags` over the classified items,
threading the map as a function. -/
def flagsLoop : (Flag → Option (Option Value)) → List ArgsItem → Flag →
    Option (Option Value)
  | m, [] => m
  | m, .flag g :: rest =>
    flagsLoop (fun x => if x = g then some (recordOf g rest.head?) else m x) rest
  | m, .command _ :: rest => flagsLoop m rest
  | m, .value _ :: rest => flagsLoop m rest

/-- The flag-to-optional-value map computed by `ParsedArgs::flags`. -/
def flagsOf (fl : List Flag) (items : List ArgsItem) : Flag → Option (Option Value) :=
  flagsLoop (initFlagMap fl) items

/-- Model of `ParsedArgs::flags` as a function of the parse result. -/
def ParsedArgs.flagsMap (r : ParsedArgs) : Flag → Option (Option Value) :=
  flagsOf r.flags r.items

/-- Model of `ParsedArgs::commands`: the command items of the classified sequence. -/
def commandsOf (items : List ArgsItem) : List Command :=
  items.filterMap (fun i =>
    match i with
    | .command c => some c
    | _ => none)

/-- Model of `ParsedArgs::commands` as a function of the parse result. -/
def ParsedArgs.commands (r : ParsedArgs) : List Command :=
  commandsOf r.items

/-- Specification reading of `commands()`: filter the classified sequence for
command items, preserving input order and duplicates. -/
def commandsSpec : List ArgsItem → List Command
  | [] => []
  | .command c :: rest => c :: commandsSpec rest
  | .flag _ :: rest => commandsSpec rest
  | .value _ :: rest => commandsSpec rest

/-- Specification reading of last-write-wins: the value recorded by the last
occurrence of flag `f` in the classified sequence, or `none` if `f` never
occurs. -/
def lastRecord? : List ArgsItem → Flag → Option (Option Value)
  | [], _ => none
  | .flag g :: rest, f =>
    match lastRecord? rest f with
    | some r => some r
    | none => if g = f then some (recordOf g rest.head?) else none
  | .command _ :: rest, f => lastRecord? rest f
  | .value _ :: rest, f => lastRecord? rest f

/-- The flag vocabulary of the source's `args_test`. -/
def testFlags : List Flag :=
  [Flag.uint "flag0", Flag.bool "flag1", Flag.int "flag2", Flag.bool "f",
   Flag.string "flag4", Flag.int "flag5"]

/-- The command vocabulary of the source's `args_test`. -/
def testCmds : List Command := [⟨"command"⟩]

/-- The token sequence of the concrete scenario (the source's `args_test`
without the leading program name). -/
def testArgs : List String :=
  ["command", "--flag0", "123", "--flag1", "true", "-f", "--flag4", "command",
   "--flag5", "-2"]

/-- The classified sequence the parser produces for `testArgs`. -/
def testItems : List ArgsItem :=
  [.command ⟨"command"⟩, .flag (Flag.uint "flag0"), .value (.uint 123),
   .flag (Flag.bool "flag1"), .value (.bool true), .flag (Flag.bool "f"),
   .flag (Flag.string "flag4"), .value (.string "command"),
   .flag (Flag.int "flag5"), .value (.int (-2))]

/-! Helper lemmas about the embedding. -/

theorem parse_def (cmds : List Command) (fl : List Flag) (args : List String) :
    parse cmds fl args =
      match parseFrom cmds fl initPrev args with
      | .ok items => .ok ⟨fl, items⟩
      | .error e => .error e := rfl

theorem parseFrom_cons (cmds : List Command) (fl : List Flag) (prev : ArgsItem)
    (a : String) (rest : List String) :
    parseFrom cmds fl prev (a :: rest) =
      match step cmds fl prev a with
      | .error e => .error e
      | .ok item =>
        match parseFrom cmds fl item rest with
        | .error e => .error e
        | .ok items => .ok (item :: items) := rfl

theorem parseFrom_append (cmds : List Command) (fl : List Flag) (prev : ArgsItem)
    (xs ys : List String) :
    parseFrom cmds fl prev (xs ++ ys) =
      match parseFrom cmds fl prev xs with
      | .error e => .error e
      | .ok items =>
        match parseFrom cmds fl (items.getLastD prev) ys with
        | .error e => .error e
        | .ok items2 => .ok (items ++ items2) := by
  induction xs generalizing prev with
  | nil =>
    simp only [List.nil_append, parseFrom, List.getLastD_nil]
    cases parseFrom cmds fl prev ys <;> rfl
  | cons a xs ih =>
    rw [List.cons_append, parseFrom_cons, parseFrom_cons]
    cases hs : step cmds fl prev a with
    | error e => rfl
    | ok item =>
      dsimp only
      rw [ih item]
      cases hx : parseFrom cmds fl item xs with
      | error e => rfl
      | ok items =>
        dsimp only
        rw [List.getLastD_cons]
        cases hy : parseFrom cmds fl (items.getLastD item) ys with
        | error e => rfl
        | ok its2 => rfl

theorem parseFrom_length (cmds : List Command) (fl : List Flag) (prev : ArgsItem)
    (args : List String) (items : List ArgsItem)
    (h : parseFrom cmds fl prev args = .ok items) : items.length = args.length := by
  induction args generalizing prev items with
  | nil =>
    simp only [parseFrom] at h
    cases h
    rfl
  | cons a args ih =>
    rw [parseFrom_cons] at h
    cases hs : step cmds fl prev a with
    | error e => rw [hs] at h; simp at h
    | ok item =>
      rw [hs] at h
      dsimp only at h
      cases hr : parseFrom cmds fl item args with
      | error e => rw [hr] at h; simp at h
      | ok its2 =>
        rw [hr] at h
        simp only [Except.ok.injEq] at h
        subst h
        simp [ih item its2 hr]

theorem replaceDashDash_of_noDashDash : ∀ (cs : List Char),
    noDashDash cs = true → replaceDashDash cs = cs
  | [], _ => rfl
  | [c], _ => rfl
  | c1 :: c2 :: rest, h => by
    simp only [noDashDash, Bool.and_eq_true, Bool.not_eq_true'] at h
    simp only [replaceDashDash, h.1, Bool.false_eq_true, if_false]
    exact congrArg (fun l => c1 :: l) (replaceDashDash_of_noDashDash (c2 :: rest) h.2)

theorem utf8Len_eq_one {cs : List Char} (h : utf8Len cs = 1) :
    ∃ c, cs = [c] ∧ c.utf8Size = 1 := by
  cases cs with
  | nil => simp [utf8Len] at h
  | cons c t =>
    have hc := Char.utf8Size_pos c
    simp only [utf8Len] at h
    refine ⟨c, ?_, by omega⟩
    cases t with
    | nil => rfl
    | cons d u =>
      have hd := Char.utf8Size_pos d
      simp only [utf8Len] at h
      omega

theorem length_le_utf8Len : ∀ (cs : List Char), cs.length ≤ utf8Len cs
  | [] => Nat.le_refl 0
  | c :: t => by
    have h1 := Char.utf8Size_pos c
    have h2 := length_le_utf8Len t
    simp only [List.length_cons, utf8Len]
    omega

theorem parse_value_error (f : Flag) (t : String) (e : Error)
    (h : f.parse_value t = .error e) : e = .malformedArgument t := by
  cases f <;> simp only [Flag.parse_value] at h <;>
    (try split at h) <;> simp_all

theorem step_flag_nonbool (cmds : List Command) (fl : List Flag) (f : Flag) (t : String)
    (hf : f.isBool = false) :
    step cmds fl (.flag f) t = (f.parse_value t).map ArgsItem.value := by
  cases f with
  | bool n => simp [Flag.isBool] at hf
  | uint n => rfl
  | int n => rfl
  | string n => rfl

theorem step_open_position (cmds : List Command) (fl : List Flag) (prev : ArgsItem) (t : String)
    (hprev : ∀ f, prev = ArgsItem.flag f → f.isBool = true) :
    step cmds fl prev t =
      match findCommand cmds t with
      | some c => .ok (.command c)
      | none =>
        if startsWithDash t.data then tryParseFlag fl t
        else
          match prev with
          | .flag f => (f.parse_value t).map ArgsItem.value
          | _ => .ok (.value (.string t)) := by
  cases prev with
  | command c => rfl
  | value v => rfl
  | flag f =>
    have hb := hprev f rfl
    cases f with
    | bool n => rfl
    | uint n => simp [Flag.isBool] at hb
    | int n => simp [Flag.isBool] at hb
    | string n => simp [Flag.isBool] at hb

theorem flagsLoop_eq (items : List ArgsItem) : ∀ (m : Flag → Option (Option Value)) (f : Flag),
    flagsLoop m items f =
      match lastRecord? items f with
      | some r => some r
      | none => m f := by
  induction items with
  | nil => intro m f; rfl
  | cons i rest ih =>
    intro m f
    cases i with
    | command c => simp only [flagsLoop, lastRecord?, ih]
    | value v => simp only [flagsLoop, lastRecord?, ih]
    | flag g =>
      simp only [flagsLoop, lastRecord?, ih]
      cases h : lastRecord? rest f with
      | some r => simp
      | none =>
        by_cases hgf : g = f
        · subst hgf; simp
        · simp [hgf, Ne.symm hgf]

theorem stripFlagName_dashdash (s : String) (hnn : noDashDash s.data = true) :
    stripFlagName ("--" ++ s) = some s := by
  unfold stripFlagName
  rw [show ("--" ++ s).data = '-' :: '-' :: s.data from by rw [String.data_append]; rfl]
  show some (String.mk (replaceDashDash s.data)) = some s
  rw [replaceDashDash_of_noDashDash s.data hnn]

theorem parse_value_step_claims (cmds : List Command) (fl : List Flag) (pre : List String)
    (t : String) (rest : List String) (f : Flag) (items : List ArgsItem)
    (hpre : parseFrom cmds fl initPrev pre = .ok items)
    (hlast : items.getLastD initPrev = .flag f)
    (hstep : step cmds fl (ArgsItem.flag f) t = (f.parse_value t).map ArgsItem.value) :
    (∀ v, f.parse_value t = .ok v → ∀ r, parse cmds fl (pre ++ t :: rest) = .ok r →
      r.items[pre.length]? = some (ArgsItem.value v))
    ∧ (∀ e, f.parse_value t = .error e →
      parse cmds fl (pre ++ t :: rest) = .error e) := by
  have hlen := parseFrom_length cmds fl initPrev pre items hpre
  have hmain : parseFrom cmds fl initPrev (pre ++ t :: rest) =
      match (f.parse_value t).map ArgsItem.value with
      | .error e => .error e
      | .ok item =>
        match parseFrom cmds fl item rest with
        | .error e => .error e
        | .ok items2 => .ok (items ++ item :: items2) := by
    rw [parseFrom_append, hpre]
    dsimp only
    rw [hlast, parseFrom_cons, hstep]
    cases hv : f.parse_value t with
    | error e => rfl
    | ok v =>
      dsimp only [Except.map]
      cases parseFrom cmds fl (ArgsItem.value v) rest <;> rfl
  constructor
  · intro v hv r hr
    rw [parse_def, hmain, hv] at hr
    dsimp only [Except.map] at hr
    cases hrest : parseFrom cmds fl (ArgsItem.value v) rest with
    | error e => rw [hrest] at hr; simp at hr
    | ok tail =>
      rw [hrest] at hr
      dsimp only at hr
      simp only [Except.ok.injEq] at hr
      subst hr
      dsimp only
      rw [← hlen, List.getElem?_append_right (Nat.le_refl _), Nat.sub_self,
        List.getElem?_cons_zero]
  · intro e he
    rw [parse_def, hmain, he]
    rfl

/-! Theorems settling the claims. -/

/-- C1: whenever the classification so far ends in a non-boolean value-bearing
flag `f`, the next token `t` is classified as `f`'s value regardless of `t`'s
shape (no hypothesis restricts `t`), and if coercion of `t` to `f`'s kind
fails the whole parse fails with `MalformedArgument` carrying `t`. -/
theorem c1_greedy_value_claim (cmds : List Command) (fl : List Flag) (pre : List String)
    (t : String) (rest : List String) (f : Flag) (items : List ArgsItem)
    (hpre : parseFrom cmds fl initPrev pre = .ok items)
    (hlast : items.getLastD initPrev = .flag f)
    (hf : f.isBool = false) :
    (∀ v, f.parse_value t = .ok v → ∀ r, parse cmds fl (pre ++ t :: rest) = .ok r →
      r.items[pre.length]? = some (ArgsItem.value v))
    ∧ (∀ e, f.parse_value t = .error e →
      parse cmds fl (pre ++ t :: rest) = .error (.malformedArgument t)) := by
  have h := parse_value_step_claims cmds fl pre t rest f items hpre hlast
    (step_flag_nonbool cmds fl f t hf)
  refine ⟨h.1, fun e he => ?_⟩
  have he2 := parse_value_error f t e he
  subst he2
  exact h.2 _ he

/-- Witness for C1: with command `command` and flag `n : Uint`, the token
`command` right after `--n` is claimed as `n`'s value and fails coercion. -/
theorem c1_witness :
    parse [Command.mk "command"] [Flag.uint "n"] (["--n"] ++ "command" :: []) =
      .error (.malformedArgument "command") :=
  (c1_greedy_value_claim [Command.mk "command"] [Flag.uint "n"] ["--n"] "command" []
    (Flag.uint "n") [ArgsItem.flag (Flag.uint "n")] rfl rfl rfl).2
    (.malformedArgument "command") rfl

/-- C2 counterexample: after the boolean flag `-b`, the token `hello` matches
no command and has no dash, yet the parse fails (it is coerced as a boolean),
contradicting the claim that it is classified as a bare `String` value. -/
theorem c2_counterexample :
    parse [] [Flag.bool "b"] ["-b", "hello"] = .error (.malformedArgument "hello") := rfl

/-- C2 (amended): after a boolean flag, a token `t` that matches no declared
command and has no leading dash is coerced as that flag's boolean value:
classified `ValueItem(Bool b)` when `t` is a boolean literal, otherwise the
whole parse fails with `MalformedArgument(t)`. -/
theorem c2_after_bool_flag (cmds : List Command) (fl : List Flag) (pre : List String)
    (t : String) (rest : List String) (n : String) (items : List ArgsItem)
    (hpre : parseFrom cmds fl initPrev pre = .ok items)
    (hlast : items.getLastD initPrev = .flag (Flag.bool n))
    (hcmd : findCommand cmds t = none)
    (hdash : startsWithDash t.data = false) :
    (∀ b, parseBool? t = some b → ∀ r, parse cmds fl (pre ++ t :: rest) = .ok r →
      r.items[pre.length]? = some (ArgsItem.value (.bool b)))
    ∧ (parseBool? t = none →
      parse cmds fl (pre ++ t :: rest) = .error (.malformedArgument t)) := by
  have hstep : step cmds fl (ArgsItem.flag (Flag.bool n)) t
      = ((Flag.bool n).parse_value t).map ArgsItem.value := by
    simp [step, hcmd, hdash]
  have h := parse_value_step_claims cmds fl pre t rest (Flag.bool n) items hpre hlast hstep
  constructor
  · intro b hb
    exact h.1 (Value.bool b) (by simp [Flag.parse_value, hb])
  · intro hnone
    exact h.2 (Error.malformedArgument t) (by simp [Flag.parse_value, hnone])

/-- Witness for C2 (amended): the non-boolean token `x` after boolean flag
`-b` fails the parse with `MalformedArgument`. -/
theorem c2_witness :
    parse [] [Flag.bool "b"] (["-b"] ++ "x" :: []) = .error (.malformedArgument "x") :=
  (c2_after_bool_flag [] [Flag.bool "b"] ["-b"] "x" [] "b"
    [ArgsItem.flag (Flag.bool "b")] rfl rfl rfl rfl).2 rfl

/-- C3: the concrete scenario from the source's own test: parsing the ten
tokens succeeds, `flags()` maps flag0 to `Uint 123`, flag1 to `Bool true`,
flag2 to no value, f to `Bool true`, flag4 to `String "command"`, flag5 to
`Int (-2)`, and `commands()` is exactly `["command"]`. -/
theorem c3_concrete_scenario :
    parse testCmds testFlags testArgs = .ok ⟨testFlags, testItems⟩ ∧
    ParsedArgs.flagsMap ⟨testFlags, testItems⟩ (Flag.uint "flag0")
      = some (some (.uint 123)) ∧
    ParsedArgs.flagsMap ⟨testFlags, testItems⟩ (Flag.bool "flag1")
      = some (some (.bool true)) ∧
    ParsedArgs.flagsMap ⟨testFlags, testItems⟩ (Flag.int "flag2") = some none ∧
    ParsedArgs.flagsMap ⟨testFlags, testItems⟩ (Flag.bool "f")
      = some (some (.bool true)) ∧
    ParsedArgs.flagsMap ⟨testFlags, testItems⟩ (Flag.string "flag4")
      = some (some (.string "command")) ∧
    ParsedArgs.flagsMap ⟨testFlags, testItems⟩ (Flag.int "flag5")
      = some (some (.int (-2))) ∧
    ParsedArgs.commands ⟨testFlags, testItems⟩ = [⟨"command"⟩] :=
  ⟨rfl, rfl, rfl, rfl, rfl, rfl, rfl, rfl⟩

/-- C4 counterexample: for the declared single-character flag named `-`, the
single-dash token `-x` is `--`, which the code strips to the empty name and
rejects with `BadFlag` instead of resolving to the flag. -/
theorem c4_counterexample :
    Flag.name (Flag.bool "-") = "-" ∧ ("-" ++ "-" : String) = "--" ∧
    parse [] [Flag.bool "-"] ["--"] = .error .badFlag :=
  ⟨rfl, rfl, rfl⟩

/-- C4 (amended): for a declared flag resolved by name `s`: if `s` is a single
one-byte (ASCII) character other than `-`, both `-s` and `--s` resolve to it;
if `s` has at least two characters, no leading dash and no two consecutive
dashes, `--s` resolves to it while `-s` (when it names no declared command)
fails the parse with `MalformedArgument`.  The one-byte condition reflects the
source's `arg.len() == 2` guard, which counts UTF-8 bytes. -/
theorem c4_single_vs_double_dash (fl : List Flag) (f : Flag) (s : String)
    (hfind : findFlag fl s = some f) :
    ((utf8Len s.data = 1 ∧ s ≠ "-") →
      tryParseFlag fl ("-" ++ s) = .ok (.flag f) ∧
      tryParseFlag fl ("--" ++ s) = .ok (.flag f))
    ∧ ((2 ≤ s.data.length ∧ startsWithDash s.data = false ∧ noDashDash s.data = true) →
      tryParseFlag fl ("--" ++ s) = .ok (.flag f) ∧
      (∀ (cmds : List Command) (rest : List String),
        findCommand cmds ("-" ++ s) = none →
        parse cmds fl (("-" ++ s) :: rest) = .error (.malformedArgument ("-" ++ s)))) := by
  constructor
  · rintro ⟨h1, h2⟩
    obtain ⟨c, hc, hsz⟩ := utf8Len_eq_one h1
    have hcd : c ≠ '-' := by
      intro h
      apply h2
      apply String.ext
      rw [hc, h]
    have hdata1 : ("-" ++ s).data = ['-', c] := by
      rw [String.data_append, hc]
      rfl
    have hnn : noDashDash s.data = true := by rw [hc]; rfl
    constructor
    · have hulen : utf8Len ['-', c] = 2 := by
        have hu : utf8Len ['-', c] = 1 + (c.utf8Size + 0) := rfl
        rw [hu, hsz]
      have hstrip : stripFlagName ("-" ++ s) = some s := by
        unfold stripFlagName
        rw [hdata1]
        simp [startsWithDashDash, hcd, List.filter, hulen]
        exact String.ext (by rw [hc])
      unfold tryParseFlag
      rw [hstrip]
      dsimp only
      rw [hfind]
    · unfold tryParseFlag
      rw [stripFlagName_dashdash s hnn]
      dsimp only
      rw [hfind]
  · rintro ⟨h2len, h2dash, h2nn⟩
    constructor
    · unfold tryParseFlag
      rw [stripFlagName_dashdash s h2nn]
      dsimp only
      rw [hfind]
    · intro cmds rest hcmdn
      obtain ⟨a, l1, hal⟩ : ∃ a l1, s.data = a :: l1 := by
        cases hsd : s.data with
        | nil => rw [hsd] at h2len; simp at h2len
        | cons a l1 => exact ⟨a, l1, rfl⟩
      obtain ⟨b, l2, hbl⟩ : ∃ b l2, l1 = b :: l2 := by
        cases hsd : l1 with
        | nil => rw [hal, hsd] at h2len; simp at h2len
        | cons b l2 => exact ⟨b, l2, rfl⟩
      have ha : a ≠ '-' := by
        rw [hal] at h2dash
        simpa [startsWithDash] using h2dash
      have hdata : ("-" ++ s).data = '-' :: a :: b :: l2 := by
        rw [String.data_append, hal, hbl]
        rfl
      have hmal : stripFlagName ("-" ++ s) = none := by
        unfold stripFlagName
        rw [hdata]
        simp only [startsWithDashDash, ha, decide_False, Bool.and_false, decide_True,
          Bool.true_and, Bool.false_eq_true, if_false]
        rw [if_neg]
        have hpa := Char.utf8Size_pos a
        have hpb := Char.utf8Size_pos b
        have hpd : ('-').utf8Size = 1 := rfl
        simp only [utf8Len]
        omega
      have htpf : tryParseFlag fl ("-" ++ s) = .error (.malformedArgument ("-" ++ s)) := by
        unfold tryParseFlag
        rw [hmal]
      have hsw : startsWithDash ("-" ++ s).data = true := by
        rw [hdata]
        rfl
      have hstep : step cmds fl initPrev ("-" ++ s)
          = .error (.malformedArgument ("-" ++ s)) := by
        rw [step_open_position cmds fl initPrev _ (fun g h => ArgsItem.noConfusion h),
          hcmdn]
        dsimp only
        rw [hsw]
        simp [htpf]
      rw [parse_def, parseFrom_cons, hstep]

/-- Witness for C4 (amended): the single-character ASCII flag `f` resolves
from both `-f` and `--f`. -/
theorem c4_witness :
    tryParseFlag [Flag.bool "f"] ("-" ++ "f") = .ok (.flag (Flag.bool "f")) ∧
    tryParseFlag [Flag.bool "f"] ("--" ++ "f") = .ok (.flag (Flag.bool "f")) :=
  (c4_single_vs_double_dash [Flag.bool "f"] (Flag.bool "f") "f" rfl).1
    ⟨rfl, by decide⟩

/-- C5 counterexample: the token `--x` is dash-prefixed, syntactically valid
(it strips to the name `x`) and `x` names no declared flag, yet with a
declared command named `--x` the parse succeeds as a command instead of
failing with `BadFlag`. -/
theorem c5_counterexample :
    stripFlagName "--x" = some "x" ∧ findFlag [] "x" = none ∧
    parse [Command.mk "--x"] [] ["--x"] = .ok ⟨[], [.command ⟨"--x"⟩]⟩ :=
  ⟨rfl, rfl, rfl⟩

/-- C5 (amended): a dash-prefixed, syntactically valid flag token that equals
no declared command name, at a position not claimed as a value, and whose
resolved name matches no declared flag, fails the whole parse with
`BadFlag`. -/
theorem c5_unknown_flag_rejected (cmds : List Command) (fl : List Flag) (pre : List String)
    (tok : String) (rest : List String) (n : String) (items : List ArgsItem)
    (hpre : parseFrom cmds fl initPrev pre = .ok items)
    (hopen : ∀ f, items.getLastD initPrev = ArgsItem.flag f → f.isBool = true)
    (hcmd : findCommand cmds tok = none)
    (hdash : startsWithDash tok.data = true)
    (hsyn : stripFlagName tok = some n)
    (hnoflag : findFlag fl n = none) :
    parse cmds fl (pre ++ tok :: rest) = .error .badFlag := by
  have hstep : step cmds fl (items.getLastD initPrev) tok = .error .badFlag := by
    rw [step_open_position cmds fl _ tok hopen, hcmd]
    dsimp only
    rw [hdash]
    simp [tryParseFlag, hsyn, hnoflag]
  rw [parse_def, parseFrom_append, hpre]
  dsimp only
  rw [parseFrom_cons, hstep]

/-- Witness for C5 (amended): `--unknown` alone fails with `BadFlag`. -/
theorem c5_witness :
    parse [] [] ([] ++ "--unknown" :: []) = .error .badFlag :=
  c5_unknown_flag_rejected [] [] [] "--unknown" [] "unknown" [] rfl
    (fun _ h => ArgsItem.noConfusion h) rfl rfl rfl rfl

/-- C6 counterexample: for the token `----`, the name looked up is not `--`
(the token minus its two leading dashes): a flag declared with name `--` is
not found and the parse step fails with `BadFlag`, because the code removes
every occurrence of `--`, yielding the empty name. -/
theorem c6_counterexample :
    findFlag [Flag.bool "--"] "--" = some (Flag.bool "--") ∧
    tryParseFlag [Flag.bool "--"] "----" = .error .badFlag :=
  ⟨rfl, rfl⟩

/-- C6 (amended): the name looked up for a double-dash token is the token with
every non-overlapping occurrence of `--` removed; in particular, whenever the
remainder after the two leading dashes contains no `--`, the looked-up name is
exactly that remainder. -/
theorem c6_strip_leading_dashes (fl : List Flag) (r : String)
    (hnn : noDashDash r.data = true) :
    tryParseFlag fl ("--" ++ r) =
      match findFlag fl r with
      | some g => .ok (.flag g)
      | none => .error .badFlag := by
  unfold tryParseFlag
  rw [stripFlagName_dashdash r hnn]

/-- Witness for C6 (amended): `--flag4` looks up exactly the name `flag4`. -/
theorem c6_witness :
    tryParseFlag [Flag.string "flag4"] ("--" ++ "flag4")
      = .ok (.flag (Flag.string "flag4")) :=
  (c6_strip_leading_dashes [Flag.string "flag4"] "flag4" rfl).trans rfl

/-- C7: for every declared flag `f`, `flags()` has an entry for `f`
(declared-but-absent flags are present with no value), and the entry is the
recording from the last occurrence of `f` in the classified sequence
(last-write-wins). -/
theorem c7_last_write_wins (fl : List Flag) (items : List ArgsItem) (f : Flag)
    (hf : f ∈ fl) :
    flagsOf fl items f = some ((lastRecord? items f).getD none) := by
  unfold flagsOf
  rw [flagsLoop_eq]
  cases h : lastRecord? items f with
  | some r => rfl
  | none => simp [initFlagMap, hf]

/-- Witness for C7: the flag `n` occurs twice; the later, valueless occurrence
overwrites the earlier recorded value `Uint 1`. -/
theorem c7_witness :
    flagsOf [Flag.uint "n"]
      [ArgsItem.flag (Flag.uint "n"), ArgsItem.value (.uint 1),
       ArgsItem.flag (Flag.uint "n")] (Flag.uint "n") = some none :=
  (c7_last_write_wins [Flag.uint "n"]
    [ArgsItem.flag (Flag.uint "n"), ArgsItem.value (.uint 1),
     ArgsItem.flag (Flag.uint "n")] (Flag.uint "n") (List.Mem.head _)).trans rfl

/-- C8: `commands()` returns exactly the command items of the classified
sequence, in input order, preserving duplicates — it agrees with the
specification's direct recursive reading `commandsSpec`. -/
theorem c8_commands_exact (items : List ArgsItem) :
    commandsOf items = commandsSpec items := by
  induction items with
  | nil => rfl
  | cons i rest ih =>
    cases i <;> simp only [commandsOf, commandsSpec, List.filterMap_cons] at * <;>
      rw [ih]

/-- C9: parsing the empty token sequence succeeds with an empty classified
sequence, `commands()` is empty, and every declared flag — boolean flags
included — maps to no value. -/
theorem c9_empty_input (cmds : List Command) (fl : List Flag) :
    parse cmds fl [] = .ok ⟨fl, []⟩ ∧
    ParsedArgs.commands ⟨fl, []⟩ = [] ∧
    (∀ f, f ∈ fl → ParsedArgs.flagsMap ⟨fl, []⟩ f = some none) := by
  refine ⟨rfl, rfl, fun f hf => ?_⟩
  simp [ParsedArgs.flagsMap, flagsOf, flagsLoop, initFlagMap, hf]

/-- Witness for C9: the declared boolean flag `b` maps to no value on empty
input. -/
theorem c9_witness :
    ParsedArgs.flagsMap ⟨[Flag.bool "b"], []⟩ (Flag.bool "b") = some none :=
  (c9_empty_input [] [Flag.bool "b"]).2.2 (Flag.bool "b") (List.Mem.head _)

/-- C10: at any position whose previous classification is not a non-boolean
value-bearing flag, a token equal to a declared command's name is classified
as that command before any dash or flag analysis — no hypothesis restricts
the token's shape, so even dash-named commands match. -/
theorem c10_command_checked_first (cmds : List Command) (fl : List Flag)
    (prev : ArgsItem) (t : String) (rest : List String) (c : Command)
    (hopen : ∀ f, prev = ArgsItem.flag f → f.isBool = true)
    (hc : findCommand cmds t = some c) :
    parseFrom cmds fl prev (t :: rest) =
      match parseFrom cmds fl (.command c) rest with
      | .error e => .error e
      | .ok items => .ok (.command c :: items) := by
  rw [parseFrom_cons, step_open_position cmds fl prev t hopen, hc]

/-- Witness for C10: the dash-named declared command `-x` is matched as a
command, not rejected as a flag. -/
theorem c10_witness :
    parseFrom [Command.mk "-x"] [] initPrev ["-x"] = .ok [.command ⟨"-x"⟩] :=
  (c10_command_checked_first [Command.mk "-x"] [] initPrev "-x" [] ⟨"-x"⟩
    (fun _ h => ArgsItem.noConfusion h) rfl).trans rfl

end WhimArgs
